import Mathlib

/-
Verification of the rss-feeds repository against its specification.

The development shallowly embeds the three source files:
  feed_generators/run_feeds.py        (Runner: change detection, summary, CLI)
  feed_generators/meta_blog.py        (meta_blog extractor + builder + main)
  feed_generators/generalist_blog.py  (generalist_blog extractor + builder + main)

External collaborators (BeautifulSoup HTML parsing, the feedgen RSS
serializer, xml.etree parsing, hashlib.md5, strptime) are out of scope in the
spec; they are modelled by explicit data (the list of selector-matched
elements, a rendered file string with an embedded generation timestamp, an
injective fingerprint).  Python dates are modelled as integers, Python
strings as Lean strings, and Python dicts (insertion ordered) as association
lists.
-/

namespace RssFeeds

/-! ## String primitives

Python's string methods are embedded by structurally recursive functions over
the character list of a string (the library versions use well-founded
recursion, which the kernel cannot evaluate on concrete inputs). -/

/-- Drop leading and trailing characters satisfying p. -/
def trimBy (p : Char → Bool) (l : List Char) : List Char :=
  ((l.dropWhile p).reverse.dropWhile p).reverse

/-- Python str.strip(): drop surrounding whitespace. -/
def strTrim (s : String) : String := ⟨trimBy Char.isWhitespace s.data⟩

/-- Split a character list at every character satisfying p (pieces between
two adjacent separators are empty, as for Lean's split and Python's
re-split). -/
def splitChAux (p : Char → Bool) : List Char → List Char → List (List Char)
  | [], cur => [cur.reverse]
  | c :: rest, cur =>
    if p c then cur.reverse :: splitChAux p rest []
    else splitChAux p rest (c :: cur)

/-- Split a string at every character satisfying p. -/
def strSplitBy (p : Char → Bool) (s : String) : List String :=
  (splitChAux p s.data []).map (fun l => ⟨l⟩)

/-- Fuelled worker for substring splitting; the fuel is an upper bound on the
number of characters still to consume, so it never runs out at the top-level
call. -/
def splitOnChAux (sep : List Char) : Nat → List Char → List Char → List (List Char)
  | 0, s, cur => [cur.reverse ++ s]
  | fuel + 1, s, cur =>
    match s with
    | [] => [cur.reverse]
    | c :: rest =>
      if sep.isPrefixOf (c :: rest) then
        cur.reverse :: splitOnChAux sep fuel ((c :: rest).drop sep.length) []
      else splitOnChAux sep fuel rest (c :: cur)

/-- Python s.split(sep) for a nonempty separator sep: the pieces of s between
the non-overlapping occurrences of sep, scanned left to right; a string not
containing sep yields the one-element list. -/
def strSplitOn (s sep : String) : List String :=
  if sep.data = [] then [s]
  else (splitOnChAux sep.data (s.data.length + 1) s.data []).map (fun l => ⟨l⟩)

/-- Python s.startswith(pre). -/
def strStartsWith (s pre : String) : Bool := pre.data.isPrefixOf s.data

/-- Python s.lower() (ASCII case mapping, enough for the titles compared by
the source). -/
def strLower (s : String) : String := ⟨s.data.map Char.toLower⟩

/-- Interleave a separator between the strings of a list (Python
sep.join(l)). -/
def strJoinSep (sep : String) : List String → String
  | [] => ""
  | [x] => x
  | x :: y :: xs => x ++ sep ++ strJoinSep sep (y :: xs)

/-! ## Runner data model (run_feeds.py) -/

/-- One parsed item element of an existing feed file, as consumed by
read_feed_entries.  The source reads each child with findtext defaulted by
or to the empty string, so a missing child and an empty child coincide and
plain strings suffice. -/
structure RawItem where
  title : String
  link : String
  guid : String
  deriving DecidableEq, Repr

/-- A feed output file on disk: its raw bytes together with the channel item
elements the external XML parser recovers from those bytes. -/
structure FeedFile where
  content : String
  items : List RawItem
  deriving DecidableEq, Repr

/-- Model of hashlib.md5(...).hexdigest() (external library): an injective
fingerprint of the file bytes.  A real hex digest is always nonempty, which
the model preserves by construction. -/
def md5Hex (s : String) : String := ⟨'#' :: s.data⟩

/-- Embedding of file_checksum: md5 checksum of the file, or the empty string
when the file does not exist. -/
def file_checksum : Option FeedFile → String
  | none => ""
  | some f => md5Hex f.content

/-- The identifier chosen for one item by read_feed_entries: guid, else link,
else title (Python or over the stripped texts). -/
def itemIdentifier (it : RawItem) : String :=
  let guid := strTrim it.guid
  let link := strTrim it.link
  let title := strTrim it.title
  if guid ≠ "" then guid else if link ≠ "" then link else title

/-- Embedding of read_feed_entries: titles/links/ids of an existing feed file;
a missing file yields the empty list, and items whose identifier is empty are
dropped.  (The except-branch for an unparsable file also returns the empty
list; a parse failure is modelled as a file whose item list is empty.) -/
def read_feed_entries : Option FeedFile → List (String × String × String)
  | none => []
  | some f =>
    f.items.foldr
      (fun it acc =>
        if itemIdentifier it ≠ "" then
          (itemIdentifier it, strTrim it.title, strTrim it.link) :: acc
        else acc) []

/-- Embedding of parse_feed_names: each raw token is split on commas, the
pieces are stripped of surrounding whitespace, and blank pieces are dropped,
preserving order. -/
def parse_feed_names (raw_names : List String) : List String :=
  raw_names.foldl
    (fun parsed name =>
      if name = "" then parsed
      else
        parsed ++ (strSplitOn name ",").filterMap
          (fun part => if strTrim part = "" then none else some (strTrim part)))
    []

/-- Outcome of one feed runner callable inside the try block of
run_selected_feeds: it returned False, returned anything else (success), or
raised an exception. -/
inductive RunnerResult
  | success
  | retFalse
  | raises
  deriving DecidableEq, Repr

/-- The world one feed name maps to during a run: whether the name is in
FEED_RUNNERS, whether FEED_OUTPUT_FILES knows its output path, what its
runner callable does, and the output file's state before the run and after
the runner executed. -/
structure FeedEnv where
  known : Bool
  hasOutput : Bool
  result : RunnerResult
  beforeFile : Option FeedFile
  afterFile : Option FeedFile
  deriving DecidableEq, Repr

/-- The per-feed log lines of run_selected_feeds, as structured events in
emission order. -/
inductive LogEvent
  | unknownFeed (feed : String)
  | running (feed : String)
  | completed (feed : String)
  | reportedFalse (feed : String)
  | raisedError (feed : String)
  | createdFile (feed : String) (entryCount : Nat)
  | updatedNewEntries (feed : String) (newCount : Nat)
  | updatedNoNew (feed : String)
  | noChanges (feed : String)
  deriving DecidableEq, Repr

/-- The accumulator state of run_selected_feeds. -/
structure RunState where
  successes : List String
  failures : List String
  updated : List String
  new_entries : List (String × List (String × String × String))
  created_feeds : List String
  log : List LogEvent
  deriving DecidableEq, Repr

/-- The initial (all-empty) accumulator state. -/
def initState : RunState := ⟨[], [], [], [], [], []⟩

/-- Embedding of one iteration of the loop body of run_selected_feeds:
lookup, before-snapshot, execution outcome, change classification, and
recording into the accumulated state. -/
def processFeed (env : String → FeedEnv) (st : RunState) (feed : String) : RunState :=
  let e := env feed
  if !e.known then
    { st with failures := st.failures ++ [feed],
              log := st.log ++ [LogEvent.unknownFeed feed] }
  else
    let st1 := { st with log := st.log ++ [LogEvent.running feed] }
    let before_checksum := if e.hasOutput then file_checksum e.beforeFile else ""
    let before_exists := if e.hasOutput then e.beforeFile.isSome else false
    let before_entries := if e.hasOutput then read_feed_entries e.beforeFile else []
    let before_ids := before_entries.map (fun entry => entry.1)
    match e.result with
    | .raises =>
      { st1 with failures := st1.failures ++ [feed],
                 log := st1.log ++ [LogEvent.raisedError feed] }
    | .retFalse =>
      { st1 with failures := st1.failures ++ [feed],
                 log := st1.log ++ [LogEvent.reportedFalse feed] }
    | .success =>
      let st2 := { st1 with successes := st1.successes ++ [feed],
                            log := st1.log ++ [LogEvent.completed feed] }
      if e.hasOutput then
        let after_checksum := file_checksum e.afterFile
        let after_entries := read_feed_entries e.afterFile
        let new_items := after_entries.filter (fun entry => entry.1 ∉ before_ids)
        if !before_exists && !after_entries.isEmpty then
          { st2 with created_feeds := st2.created_feeds ++ [feed],
                     log := st2.log ++ [LogEvent.createdFile feed after_entries.length] }
        else if after_checksum ≠ "" && after_checksum ≠ before_checksum then
          if !new_items.isEmpty then
            { st2 with updated := st2.updated ++ [feed],
                       new_entries := st2.new_entries ++ [(feed, new_items)],
                       log := st2.log ++ [LogEvent.updatedNewEntries feed new_items.length] }
          else
            { st2 with updated := st2.updated ++ [feed],
                       log := st2.log ++ [LogEvent.updatedNoNew feed] }
        else
          { st2 with log := st2.log ++ [LogEvent.noChanges feed] }
      else st2

/-- The accumulator state after processing a list of feed names in order. -/
def runFeedsState (env : String → FeedEnv) (st : RunState) (feeds : List String) : RunState :=
  feeds.foldl (processFeed env) st

/-- Embedding of run_selected_feeds: process every feed, then return exit
status 0 when no feed failed and 1 otherwise. -/
def run_selected_feeds (env : String → FeedEnv) (feeds : List String) : Nat :=
  if (runFeedsState env initState feeds).failures.isEmpty then 0 else 1

/-- Result of the CLI entry point: either the argparse usage error raised by
parser.error (a non-zero exit before any feed runs) or a completed run over
the resolved feed list with its exit code. -/
inductive CliOutcome
  | usageError
  | ran (selected : List String) (exitCode : Nat)
  deriving DecidableEq, Repr

/-- Embedding of main of run_feeds.py: resolve the selected feed list from
the optional feeds argument (parsed) or the full registry (key order), raise
a usage error when the resolved list is empty, and otherwise run it. -/
def cliMain (env : String → FeedEnv) (registry : List String)
    (feedsArg : Option (List String)) : CliOutcome :=
  let selected := match feedsArg with
    | some raw => parse_feed_names raw
    | none => registry
  if selected.isEmpty then .usageError
  else .ran selected (run_selected_feeds env selected)

/-! ## meta_blog extractor (meta_blog.py) -/

/-- Embedding of GENERIC_TITLES: the configured non-article titles. -/
def GENERIC_TITLES : List String :=
  ["", "Featured", "The Latest", "About", "Meta AI", "AI Research", "Back",
   "Meta AI>", "AI Research>", "About>", "Learn More"]

/-- Python str.split() followed by a single-space join: collapse whitespace
runs and drop leading/trailing whitespace. -/
def collapseWs (s : String) : String :=
  strJoinSep " " ((strSplitBy (fun c => c.isWhitespace) s).filter (fun t => t ≠ ""))

/-- Embedding of normalize_title: collapse whitespace, strip, and map titles
that match a generic title case-insensitively to the empty string. -/
def normalize_title (title : String) : String :=
  let cleaned := strTrim (collapseWs title)
  if GENERIC_TITLES.any (fun t => strLower t = strLower cleaned) then "" else cleaned

/-- Python substring test sub in s for a nonempty sub, via splitOn. -/
def strContains (s sub : String) : Bool := (strSplitOn s sub).length ≠ 1

/-- The part of s after the first occurrence of sep (Python
s.split(sep, 1)[1]); only used when sep occurs in s. -/
def afterFirst (s sep : String) : String :=
  strJoinSep sep ((strSplitOn s sep).tail)

/-- Python s.strip("/"): drop leading and trailing slash characters. -/
def stripSlashes (s : String) : String :=
  ⟨((s.data.dropWhile (fun c => c = '/')).reverse.dropWhile (fun c => c = '/')).reverse⟩

/-- Embedding of slugify_link: None when the link has no /blog/ segment or the
part after it strips to nothing; otherwise the stripped part up to the first
question mark (which may be the empty string, caught by the caller's
truthiness check, exactly as in the source). -/
def slugify_link (link : String) : Option String :=
  if !strContains link "/blog/" then none
  else
    let slug := stripSlashes (afterFirst link "/blog/")
    if slug = "" then none
    else some ((strSplitOn slug "?").headD "")

/-- Python str.title() restricted to alphabetic characters as the cased
characters: uppercase an alphabetic character that follows a non-alphabetic
one, lowercase the other alphabetic characters. -/
def pyTitleGo : Bool → List Char → List Char
  | _, [] => []
  | prevAlpha, c :: cs =>
    if c.isAlpha then
      (if prevAlpha then c.toLower else c.toUpper) :: pyTitleGo true cs
    else
      c :: pyTitleGo false cs

/-- Python str.title() on a string. -/
def pyTitle (s : String) : String := ⟨pyTitleGo false s.data⟩

/-- The slug prettified as a fallback title:
slug.replace("-", " ").title(). -/
def prettifySlug (slug : String) : String :=
  pyTitle ⟨slug.data.map (fun c => if c = '-' then ' ' else c)⟩

/-- Python a or b on strings: b when a is empty. -/
def pyOrStr (a b : String) : String := if a = "" then b else a

/-- One anchor element matched by the CSS selector of extract_articles of
meta_blog.py (HTML parsing and selection are the external BeautifulSoup
library).  text is get_text(" ", strip=True); ariaLabel and titleAttr are the
attribute lookups with the empty string for a missing attribute (the source
uses only their truthiness); nearbyDate is the date found by the four-level
ancestor search with parse_date_from_text (regex date scanning over the
external HTML tree), dates modelled as integers. -/
structure MetaAnchor where
  href : String
  text : String
  ariaLabel : String
  titleAttr : String
  nearbyDate : Option Int
  deriving DecidableEq, Repr

/-- One article record of meta_blog.py, a dict value of extract_articles. -/
structure MetaArticle where
  title : String
  link : String
  description : String
  date : Option Int
  category : String
  deriving DecidableEq, Repr

/-- Lookup of articles.get(slug) in the insertion-ordered dict, modelled as an
association list. -/
def lookupSlug (arts : List (String × MetaArticle)) (slug : String) : Option MetaArticle :=
  ((arts.find? (fun p => p.1 = slug)).map (fun p => p.2))

/-- In-place mutation of the dict entry at slug (position preserved, as for a
Python dict). -/
def updateSlug (arts : List (String × MetaArticle)) (slug : String)
    (f : MetaArticle → MetaArticle) : List (String × MetaArticle) :=
  arts.map (fun p => if p.1 = slug then (p.1, f p.2) else p)

/-- Exact (case-sensitive) membership in GENERIC_TITLES, as used by the
de-duplication branch of extract_articles. -/
def isGeneric (t : String) : Bool := GENERIC_TITLES.contains t

/-- The in-place merge applied to the existing dict entry when a second
anchor with the same slug is seen: prefer a non-generic title (also updating
the description with it) and fill in a missing date. -/
def mergeExisting (raw_title : String) (date : Option Int) (existing : MetaArticle) :
    MetaArticle :=
  let e1 :=
    if isGeneric existing.title ∧ ¬ isGeneric raw_title then
      { existing with title := raw_title, description := raw_title }
    else existing
  if e1.date = none ∧ date ≠ none then { e1 with date := date } else e1

/-- Embedding of one iteration of the anchor loop of extract_articles of
meta_blog.py: skip empty and pagination hrefs, absolutize the link, derive the
slug, recover a title through the anchor-text, aria-label/title-attribute and
prettified-slug fallbacks, then either merge into the existing entry of the
same slug (preferring a non-generic title and filling a missing date) or
append a new entry. -/
def metaStep (arts : List (String × MetaArticle)) (anchor : MetaAnchor) :
    List (String × MetaArticle) :=
  let href := anchor.href
  if href = "" then arts
  else if strContains href "page=" then arts
  else
    let link := if strStartsWith href "/" then "https://ai.meta.com" ++ href else href
    match slugify_link link with
    | none => arts
    | some slug =>
      if slug = "" then arts
      else
        let t1 := normalize_title anchor.text
        let t2 := if t1 = "" then normalize_title (pyOrStr anchor.ariaLabel anchor.titleAttr) else t1
        let raw_title := if t2 = "" then prettifySlug slug else t2
        let date := anchor.nearbyDate
        match lookupSlug arts slug with
        | some _ =>
          updateSlug arts slug (mergeExisting raw_title date)
        | none =>
          arts ++ [(slug,
            { title := pyOrStr raw_title (prettifySlug slug),
              link := link,
              description := pyOrStr raw_title (prettifySlug slug),
              date := date,
              category := "AI at Meta" })]

/-- The dict built by the anchor loop of extract_articles, before the final
title-length filter. -/
def metaRawArticles (anchors : List MetaAnchor) : List (String × MetaArticle) :=
  anchors.foldl metaStep []

/-- Embedding of extract_articles of meta_blog.py: the anchor loop followed by
the filter dropping entries whose title is shorter than 5 characters. -/
def extract_articles_meta (anchors : List MetaAnchor) : List (String × MetaArticle) :=
  (metaRawArticles anchors).filter (fun p => 5 ≤ p.2.title.length)

/-- The sort key comparison of generate_rss_feed of meta_blog.py: the source
sorts by the tuple (date is not None, date or datetime.min) in reverse, a
stable descending sort; metaSortLe a b states that the key of b is at most
the key of a, so dated articles come first, in non-increasing date order. -/
def metaSortLe (a b : MetaArticle) : Bool :=
  match a.date, b.date with
  | some da, some db => db ≤ da
  | some _, none => true
  | none, some _ => false
  | none, none => true

/-- The sort comparison as a decidable relation, for the stable sort. -/
def metaSortRel (a b : MetaArticle) : Prop := metaSortLe a b = true

instance metaSortRelDec : DecidableRel metaSortRel :=
  fun a b => instDecidableEqBool (metaSortLe a b) true

instance metaSortRelTotal : IsTotal MetaArticle metaSortRel := by
  constructor
  intro a b
  unfold metaSortRel metaSortLe
  rcases a.date with _ | da <;> rcases b.date with _ | db
  all_goals simp +decide
  all_goals omega

instance metaSortRelTrans : IsTrans MetaArticle metaSortRel := by
  constructor
  intro a b c
  unfold metaSortRel metaSortLe
  rcases a.date with _ | da <;> rcases b.date with _ | db <;>
    rcases c.date with _ | dc
  all_goals simp +decide
  all_goals omega

/-- Embedding of generate_rss_feed of meta_blog.py: the dict values in
insertion order, stably sorted by the descending sort key (Python sorted is a
stable sort; a stable sort with respect to a total preorder is unique, so the
stable insertion sort used here agrees with it); the result is the ordered
entry list of the feed document. -/
def generate_rss_feed_meta (articles : List (String × MetaArticle)) : List MetaArticle :=
  (articles.map (fun p => p.2)).insertionSort metaSortRel

/-! ## generalist_blog extractor (generalist_blog.py) -/

/-- One anchor element matched by the selector a.blog-menu-article-link of
extract_articles of generalist_blog.py (selection by the external
BeautifulSoup library).  h1Text and h2Text are the stripped texts of the
first h1 and h2 descendants when present; pDate is the result of
parse_date applied to the first p descendant's text (strptime is external),
none when there is no p descendant or its text fails to parse. -/
structure GenAnchor where
  href : String
  h1Text : Option String
  h2Text : Option String
  pDate : Option Int
  deriving DecidableEq, Repr

/-- One article record of generalist_blog.py; every record carries a date
because extraction falls back to the current time. -/
structure GenArticle where
  title : String
  link : String
  description : String
  date : Int
  category : String
  deriving DecidableEq, Repr

/-- Embedding of one iteration of the anchor loop of extract_articles of
generalist_blog.py, run at wall-clock time now: skip anchors without an href
or without a nonempty h1 title, absolutize the link against the site root,
default the description to the title and the date to now. -/
def genStep (now : Int) (arts : List GenArticle) (a : GenAnchor) : List GenArticle :=
  if a.href = "" then arts
  else
    let description :=
      match a.h2Text with
      | some d => d
      | none => a.h1Text.getD ""
    match a.h1Text with
    | none => arts
    | some t =>
      if t = "" then arts
      else
        arts ++ [{ title := t,
                   link := if strStartsWith a.href "http" then a.href
                           else "https://generalistai.com" ++ a.href,
                   description := description,
                   date := a.pDate.getD now,
                   category := "Generalist AI" }]

/-- Embedding of extract_articles of generalist_blog.py at wall-clock time
now. -/
def extract_articles_gen (now : Int) (anchors : List GenAnchor) : List GenArticle :=
  anchors.foldl (genStep now) []

/-- The sort comparison of generate_rss_feed of generalist_blog.py:
sorted(..., key=lambda a: a["date"], reverse=True), a stable descending sort
by date. -/
def genSortLe (a b : GenArticle) : Bool := b.date ≤ a.date

/-- The sort comparison as a decidable relation, for the stable sort. -/
def genSortRel (a b : GenArticle) : Prop := genSortLe a b = true

instance genSortRelDec : DecidableRel genSortRel :=
  fun a b => instDecidableEqBool (genSortLe a b) true

instance genSortRelTotal : IsTotal GenArticle genSortRel := by
  constructor
  intro a b
  unfold genSortRel genSortLe
  simp
  omega

instance genSortRelTrans : IsTrans GenArticle genSortRel := by
  constructor
  intro a b c
  unfold genSortRel genSortLe
  simp
  omega

/-- Embedding of generate_rss_feed of generalist_blog.py: the records stably
sorted by descending date (Python sorted is a stable sort; a stable sort with
respect to a total preorder is unique, so the stable insertion sort used here
agrees with it); the result is the ordered entry list of the feed document. -/
def generate_rss_feed_gen (articles : List GenArticle) : List GenArticle :=
  articles.insertionSort genSortRel

/-! ## Feed writer model (serialization is the external feedgen library) -/

/-- One item as handed to the serializer: both builders emit title, link,
description, pubDate (omitted when the article has no date; generalist
articles always have one), category, and a guid equal to the link. -/
structure RenderItem where
  title : String
  link : String
  description : String
  pubDate : Option Int
  category : String
  deriving DecidableEq, Repr

/-- The render items of a sorted meta_blog article list: published is set
only when the article has a date. -/
def metaRenderItems (arts : List MetaArticle) : List RenderItem :=
  arts.map (fun a => ⟨a.title, a.link, a.description, a.date, a.category⟩)

/-- The render items of a sorted generalist_blog article list. -/
def genRenderItems (arts : List GenArticle) : List RenderItem :=
  arts.map (fun a => ⟨a.title, a.link, a.description, some a.date, a.category⟩)

/-- Modelled from the spec: serialization of one item by the external feedgen
library (out of scope in the spec), with the stable field ordering required
by the Feed Writer contract and a guid set to the item's link as in the
external-interfaces section. -/
def renderItem (it : RenderItem) : String :=
  "<item><title>" ++ it.title ++ "</title><link>" ++ it.link ++ "</link>" ++
  "<description>" ++ it.description ++ "</description>" ++
  (match it.pubDate with
   | some d => "<pubDate>" ++ toString d ++ "</pubDate>"
   | none => "") ++
  "<category>" ++ it.category ++ "</category>" ++
  "<guid>" ++ it.link ++ "</guid></item>"

/-- Modelled from the spec: the serialized feed file bytes, channel metadata
first and then the items in builder order, with the embedded generation
timestamp (lastBuildDate) that the idempotence property of the spec asks to
exclude from content comparison. -/
def renderFeed (channel : String) (stamp : Int) (items : List RenderItem) : String :=
  "<rss><channel>" ++ channel ++
  "<lastBuildDate>" ++ toString stamp ++ "</lastBuildDate>" ++
  String.join (items.map renderItem) ++
  "</channel></rss>"

/-- Modelled from the spec: writing a document and parsing the file back
yields the items' (guid, title, link) with guid equal to the link (the
round-trip property of the spec; XML parsing is the external library). -/
def writeFeedFile (channel : String) (stamp : Int) (items : List RenderItem) : FeedFile :=
  ⟨renderFeed channel stamp items, items.map (fun it => ⟨it.title, it.link, it.link⟩)⟩

/-- The channel metadata of the meta_blog feed, fixed by
generate_rss_feed of meta_blog.py. -/
def metaChannel : String :=
  "<title>AI at Meta Blog</title><description>Latest updates from the AI at Meta blog</description>"

/-- The channel metadata of the generalist_blog feed, fixed by
generate_rss_feed of generalist_blog.py. -/
def genChannel : String :=
  "<title>Generalist AI Blog</title><description>Research updates and news from Generalist AI</description>"

/-! ## Per-feed main pipelines -/

/-- The feed document (ordered render items) produced by one run of the
meta_blog pipeline at wall-clock time now; the pipeline never reads the
clock, so the argument is unused. -/
def metaRunItems (_now : Int) (anchors : List MetaAnchor) : List RenderItem :=
  metaRenderItems (generate_rss_feed_meta (extract_articles_meta anchors))

/-- The feed document (ordered render items) produced by one run of the
generalist_blog pipeline at wall-clock time now; extraction stamps now on
every record whose date failed to parse. -/
def genRunItems (now : Int) (anchors : List GenAnchor) : List RenderItem :=
  genRenderItems (generate_rss_feed_gen (extract_articles_gen now anchors))

/-- Embedding of main of meta_blog.py over the extracted anchors: when zero
articles survive extraction the function returns False and leaves the output
file slot untouched; otherwise it writes the serialized feed (stamped with
the generation time) and returns True. -/
def main_meta (anchors : List MetaAnchor) (stamp : Int) (fs : Option FeedFile) :
    Bool × Option FeedFile :=
  let articles := extract_articles_meta anchors
  if articles.isEmpty then (false, fs)
  else (true, some (writeFeedFile metaChannel stamp (metaRunItems stamp anchors)))

/-- Embedding of main of generalist_blog.py over the extracted anchors, run
at wall-clock time now: when zero articles are extracted the function returns
False and leaves the output file slot untouched; otherwise it writes the
serialized feed and returns True. -/
def main_gen (now : Int) (anchors : List GenAnchor) (stamp : Int) (fs : Option FeedFile) :
    Bool × Option FeedFile :=
  let articles := extract_articles_gen now anchors
  if articles.isEmpty then (false, fs)
  else (true, some (writeFeedFile genChannel stamp (genRunItems now anchors)))

/-! ## C10: meta_blog title-length filter -/

/-- C10: every article record returned by extract_articles of meta_blog.py
has a title of length at least 5 characters, and a candidate built by the
anchor loop whose final title (after the anchor-text, aria-label or
title-attribute, and prettified-slug fallbacks) is shorter than 5 characters
is dropped from the result. -/
theorem meta_title_length_ge_five (anchors : List MetaAnchor) :
    (∀ p ∈ extract_articles_meta anchors, 5 ≤ p.2.title.length) ∧
    (∀ p ∈ metaRawArticles anchors, p.2.title.length < 5 →
      p ∉ extract_articles_meta anchors) := by
  constructor
  · intro p hp
    exact of_decide_eq_true (List.mem_filter.mp hp).2
  · intro p _ hlt hmem
    exact absurd (of_decide_eq_true (List.mem_filter.mp hmem).2) (Nat.not_le_of_lt hlt)

/-- A concrete input for the C10 witness: one anchor with a long title and
one with a two-character title. -/
def c10Anchors : List MetaAnchor :=
  [⟨"/blog/hello-world/", "Hello World", "", "", some 5⟩,
   ⟨"/blog/ab/", "Hi", "", "", none⟩]

/-- The surviving candidate of c10Anchors. -/
def c10Kept : String × MetaArticle :=
  ("hello-world",
   ⟨"Hello World", "https://ai.meta.com/blog/hello-world/", "Hello World",
    some 5, "AI at Meta"⟩)

/-- The dropped short-titled candidate of c10Anchors. -/
def c10Short : String × MetaArticle :=
  ("ab", ⟨"Hi", "https://ai.meta.com/blog/ab/", "Hi", none, "AI at Meta"⟩)

/-- Witness for C10 at a concrete input. -/
theorem meta_title_length_ge_five_witness :
    5 ≤ c10Kept.2.title.length ∧ c10Short ∉ extract_articles_meta c10Anchors :=
  ⟨(meta_title_length_ge_five c10Anchors).1 c10Kept (by decide),
   (meta_title_length_ge_five c10Anchors).2 c10Short (by decide) (by decide)⟩

/-! ## C9: feed-name parsing -/

/-- The spec's description of feed-name parsing, stated for comparison with
the source: split each raw token at every comma or whitespace character and
discard the empty pieces, preserving order. -/
def specParseFeedNames (raw_names : List String) : List String :=
  raw_names.foldl
    (fun parsed name =>
      parsed ++ (strSplitBy (fun c => c = ',' || c.isWhitespace) name).filter (fun t => t ≠ ""))
    []

/-- Counterexample for C9: a token containing a space but no comma is kept
whole by parse_feed_names, while the claimed comma-and-whitespace splitting
would cut it in two. -/
theorem parse_feed_names_cex :
    parse_feed_names ["a b"] = ["a b"] ∧
    specParseFeedNames ["a b"] = ["a", "b"] ∧
    parse_feed_names ["a b"] ≠ specParseFeedNames ["a b"] :=
  ⟨by decide, by decide, by decide⟩

/-- Auxiliary: the per-token behaviour of parse_feed_names as a
split-trim-filter pipeline. -/
theorem parse_token_eq (parts : List String) :
    parts.filterMap (fun part => if strTrim part = "" then none else some (strTrim part)) =
      (parts.map strTrim).filter (fun s => s ≠ "") := by
  induction parts with
  | nil => rfl
  | cons p ps ih =>
    by_cases hp : strTrim p = "" <;>
      simp [List.filterMap_cons, List.filter_cons, hp, ih]

/-- Auxiliary: parse_feed_names as one flatMap over the raw tokens. -/
theorem parse_feed_names_eq (raw : List String) :
    parse_feed_names raw =
      raw.flatMap (fun name => ((strSplitOn name ",").map strTrim).filter (fun s => s ≠ "")) := by
  unfold parse_feed_names
  suffices h : ∀ acc : List String,
      raw.foldl
        (fun parsed name =>
          if name = "" then parsed
          else
            parsed ++ (strSplitOn name ",").filterMap
              (fun part => if strTrim part = "" then none else some (strTrim part))) acc =
        acc ++ raw.flatMap
          (fun name => ((strSplitOn name ",").map strTrim).filter (fun s => s ≠ "")) by
    simpa using h []
  induction raw with
  | nil => intro acc; simp
  | cons n ns ih =>
    intro acc
    by_cases hn : n = ""
    · subst hn
      rw [List.foldl_cons]
      show List.foldl _ acc ns = _
      rw [ih acc, List.flatMap_cons]
      have h0 : ((strSplitOn "" ",").map strTrim).filter (fun s => s ≠ "") = [] := by decide
      rw [h0, List.nil_append]
    · rw [List.foldl_cons, if_neg hn, ih, List.flatMap_cons, parse_token_eq, List.append_assoc]

/-- C9 (amended): parse_feed_names splits each raw token on commas (not on
whitespace inside a token), strips surrounding whitespace from each piece,
discards blank pieces and preserves input order; the quoted CLI example
still resolves to exactly the two names; and an empty resolved list is a
usage error raised before any feed runs. -/
theorem parse_feed_names_amended (raw : List String) (env : String → FeedEnv)
    (registry : List String) :
    parse_feed_names raw =
      raw.flatMap (fun name => ((strSplitOn name ",").map strTrim).filter (fun s => s ≠ "")) ∧
    parse_feed_names ["site1, site2"] = ["site1", "site2"] ∧
    (parse_feed_names raw = [] → cliMain env registry (some raw) = CliOutcome.usageError) := by
  refine ⟨parse_feed_names_eq raw, by decide, ?_⟩
  intro hempty
  simp [cliMain, hempty]

/-- Witness for C9 (amended) at a concrete input. -/
theorem parse_feed_names_amended_witness :
    cliMain (fun _ => ⟨true, true, RunnerResult.success, none, none⟩) ["meta_blog"]
      (some [" , ", ""]) = CliOutcome.usageError :=
  (parse_feed_names_amended [" , ", ""]
    (fun _ => ⟨true, true, RunnerResult.success, none, none⟩) ["meta_blog"]).2.2 (by decide)

/-! ## C7: empty extraction is a soft failure -/

/-- C7: for every input from which zero article records are extracted, the
pipeline main returns False without writing an output file (both for
meta_blog and generalist_blog), and the Runner marks a feed whose runner
returned False as failed in the run summary. -/
theorem empty_extraction_soft_failure
    (anchors : List MetaAnchor) (ganchors : List GenAnchor) (now stampM stampG : Int)
    (fsM fsG : Option FeedFile) (env : String → FeedEnv) (st : RunState) (feed : String)
    (hm : extract_articles_meta anchors = [])
    (hg : extract_articles_gen now ganchors = [])
    (hk : (env feed).known = true)
    (hr : (env feed).result = RunnerResult.retFalse) :
    main_meta anchors stampM fsM = (false, fsM) ∧
    main_gen now ganchors stampG fsG = (false, fsG) ∧
    processFeed env st feed =
      { st with failures := st.failures ++ [feed],
                log := st.log ++ [LogEvent.running feed, LogEvent.reportedFalse feed] } := by
  refine ⟨?_, ?_, ?_⟩
  · simp [main_meta, hm]
  · simp [main_gen, hg]
  · simp [processFeed, hk, hr]

/-- Witness for C7 at a concrete input (no matching anchors at all). -/
theorem empty_extraction_soft_failure_witness :
    main_meta [] 0 none = (false, none) ∧
    main_gen 0 [] 0 none = (false, none) ∧
    processFeed (fun _ => ⟨true, true, RunnerResult.retFalse, none, none⟩) initState "meta_blog" =
      { initState with failures := ["meta_blog"],
                       log := [LogEvent.running "meta_blog", LogEvent.reportedFalse "meta_blog"] } :=
  empty_extraction_soft_failure [] [] 0 0 0 none none
    (fun _ => ⟨true, true, RunnerResult.retFalse, none, none⟩) initState "meta_blog"
    (by decide) (by decide) (by decide) (by decide)

/-! ## C4: created classification -/

/-- C4: when the feed name is known with a known output path, the output file
did not exist before the run, the runner succeeds, and the re-read file holds
two entries, the Runner classifies the feed as created and reports 2
entries. -/
theorem created_classification
    (env : String → FeedEnv) (st : RunState) (feed : String) (af : FeedFile)
    (x y : String × String × String)
    (hk : (env feed).known = true)
    (ho : (env feed).hasOutput = true)
    (hr : (env feed).result = RunnerResult.success)
    (hb : (env feed).beforeFile = none)
    (ha : (env feed).afterFile = some af)
    (hae : read_feed_entries (some af) = [x, y]) :
    processFeed env st feed =
      { st with successes := st.successes ++ [feed],
                created_feeds := st.created_feeds ++ [feed],
                log := st.log ++ [LogEvent.running feed, LogEvent.completed feed,
                                  LogEvent.createdFile feed 2] } := by
  simp [processFeed, hk, ho, hr, hb, ha, hae]

/-- A concrete after-file for the C4 witness. -/
def c4After : FeedFile :=
  writeFeedFile genChannel 7 (genRunItems 0 [⟨"/post", some "Hello", none, some 3⟩,
                                             ⟨"/p2", some "Title Two", some "D2", some 9⟩])

/-- A concrete environment for the C4 witness: no previous output file. -/
def c4Env : String → FeedEnv :=
  fun _ => ⟨true, true, RunnerResult.success, none, some c4After⟩

set_option maxRecDepth 8000 in
/-- Witness for C4 at a concrete input. -/
theorem created_classification_witness :
    processFeed c4Env initState "generalist_blog" =
      { initState with successes := ["generalist_blog"],
                       created_feeds := ["generalist_blog"],
                       log := [LogEvent.running "generalist_blog",
                               LogEvent.completed "generalist_blog",
                               LogEvent.createdFile "generalist_blog" 2] } :=
  created_classification c4Env initState "generalist_blog" c4After
    ("https://generalistai.com/p2", "Title Two", "https://generalistai.com/p2")
    ("https://generalistai.com/post", "Hello", "https://generalistai.com/post")
    (by decide) (by decide) (by decide) (by decide) (by decide) (by decide)

/-! ## C3: updated classification -/

/-- A modelled md5 digest is never the empty string, matching the real
hexdigest. -/
theorem md5Hex_ne_empty (s : String) : md5Hex s ≠ "" := by
  intro h
  have hdata := congrArg String.data h
  simp [md5Hex] at hdata

/-- C3: when the feed name is known with a known output path, the output file
existed before the run with entry-identifier set consisting of a and b
(identifier = guid, else link, else title, as read by read_feed_entries), the
runner succeeds, and the re-read file has a changed checksum and identifier
set consisting of a, b and a fresh c, the Runner classifies the feed as
updated with exactly one new entry -- the entry carrying c, i.e. exactly the
after-entries whose identifier is not in the before-identifier set. -/
theorem updated_classification
    (env : String → FeedEnv) (st : RunState) (feed : String)
    (bf af : FeedFile) (a b c : String) (ea eb ec : String × String × String)
    (hk : (env feed).known = true)
    (ho : (env feed).hasOutput = true)
    (hr : (env feed).result = RunnerResult.success)
    (hb : (env feed).beforeFile = some bf)
    (ha : (env feed).afterFile = some af)
    (hbe : (read_feed_entries (some bf)).map (fun e => e.1) = [a, b])
    (hae : read_feed_entries (some af) = [ea, eb, ec])
    (hea : ea.1 = a) (heb : eb.1 = b) (hec : ec.1 = c)
    (hca : c ≠ a) (hcb : c ≠ b)
    (hcs : md5Hex af.content ≠ md5Hex bf.content) :
    processFeed env st feed =
      { st with successes := st.successes ++ [feed],
                updated := st.updated ++ [feed],
                new_entries := st.new_entries ++ [(feed, [ec])],
                log := st.log ++ [LogEvent.running feed, LogEvent.completed feed,
                                  LogEvent.updatedNewEntries feed 1] } := by
  simp [processFeed, hk, ho, hr, hb, ha, hbe, hae, hea, heb, hec, hca, hcb, hcs,
        file_checksum, md5Hex_ne_empty af.content, List.filter_cons]

/-! ## C6: unknown-feed isolation -/

/-- C6: a requested name missing from the feed registry is recorded as an
immediate failure with the unknown-feed log outcome, touching nothing else in
the state (no snapshot, execution or classification), and the remaining names
of the request list are still processed exactly as they would be. -/
theorem unknown_feed_isolation
    (env : String → FeedEnv) (st : RunState) (pre post : List String) (f : String)
    (h : (env f).known = false) :
    processFeed env st f =
      { st with failures := st.failures ++ [f],
                log := st.log ++ [LogEvent.unknownFeed f] } ∧
    runFeedsState env st (pre ++ f :: post) =
      runFeedsState env
        { runFeedsState env st pre with
            failures := (runFeedsState env st pre).failures ++ [f],
            log := (runFeedsState env st pre).log ++ [LogEvent.unknownFeed f] } post := by
  have h1 : ∀ s : RunState, processFeed env s f =
      { s with failures := s.failures ++ [f], log := s.log ++ [LogEvent.unknownFeed f] } := by
    intro s
    simp [processFeed, h]
  refine ⟨h1 st, ?_⟩
  unfold runFeedsState
  rw [List.foldl_append, List.foldl_cons, h1]

/-- A concrete registry environment for the C6 witness: the name bogus is
unknown, every other name is known and succeeds without an output path. -/
def c6Env : String → FeedEnv := fun name =>
  if name = "bogus" then ⟨false, false, RunnerResult.raises, none, none⟩
  else ⟨true, false, RunnerResult.success, none, none⟩

/-- Witness for C6 at a concrete input. -/
theorem unknown_feed_isolation_witness :
    processFeed c6Env initState "bogus" =
      { initState with failures := ["bogus"], log := [LogEvent.unknownFeed "bogus"] } ∧
    runFeedsState c6Env initState (["meta_blog"] ++ "bogus" :: ["generalist_blog"]) =
      runFeedsState c6Env
        { runFeedsState c6Env initState ["meta_blog"] with
            failures := (runFeedsState c6Env initState ["meta_blog"]).failures ++ ["bogus"],
            log := (runFeedsState c6Env initState ["meta_blog"]).log ++
                     [LogEvent.unknownFeed "bogus"] }
        ["generalist_blog"] :=
  unknown_feed_isolation c6Env initState ["meta_blog"] ["generalist_blog"] "bogus" (by decide)

/-! ## C5: exit status -/

/-- Whether one feed name fails during the run: its name is unknown, or its
runner returned False or raised. -/
def feedFails (e : FeedEnv) : Bool :=
  !e.known || decide (e.result ≠ RunnerResult.success)

/-- Each loop iteration appends the feed to the failure list exactly when the
feed fails, and never removes entries. -/
theorem processFeed_failures (env : String → FeedEnv) (st : RunState) (f : String) :
    (processFeed env st f).failures =
      st.failures ++ (if feedFails (env f) then [f] else []) := by
  cases hk : (env f).known
  · simp [processFeed, feedFails, hk]
  · cases hr : (env f).result
    · simp only [processFeed, feedFails, hk, hr]
      repeat' split
      all_goals simp_all
    · simp [processFeed, feedFails, hk, hr]
    · simp [processFeed, feedFails, hk, hr]

/-- The failure list of a whole run: the requested names that fail, in
order. -/
theorem runFeedsState_failures (env : String → FeedEnv) (feeds : List String)
    (st : RunState) :
    (runFeedsState env st feeds).failures =
      st.failures ++ feeds.filter (fun f => feedFails (env f)) := by
  induction feeds generalizing st with
  | nil => simp [runFeedsState]
  | cons f fs ih =>
    show (runFeedsState env (processFeed env st f) fs).failures = _
    rw [ih, processFeed_failures, List.filter_cons]
    by_cases hf : feedFails (env f) = true
    · simp [hf]
    · simp [hf]

/-- C5: after all requested feeds are processed, run_selected_feeds returns
exit status 0 if and only if no feed failed (every requested name is known
and its runner succeeded), and 1 otherwise. -/
theorem exit_status_zero_iff (env : String → FeedEnv) (feeds : List String) :
    run_selected_feeds env feeds = 0 ↔
      ∀ f ∈ feeds, (env f).known = true ∧ (env f).result = RunnerResult.success := by
  have hfail : (runFeedsState env initState feeds).failures =
      feeds.filter (fun f => feedFails (env f)) := by
    simpa [initState] using runFeedsState_failures env feeds initState
  constructor
  · intro h0 f hf
    cases hemp : (runFeedsState env initState feeds).failures.isEmpty
    · rw [run_selected_feeds, hemp] at h0
      simp at h0
    · have hnil : feeds.filter (fun f => feedFails (env f)) = [] := by
        rw [← hfail]
        exact List.isEmpty_iff.mp hemp
      have hnotf := List.filter_eq_nil_iff.mp hnil f hf
      unfold feedFails at hnotf
      simpa using hnotf
  · intro hall
    have hnil : feeds.filter (fun f => feedFails (env f)) = [] := by
      apply List.filter_eq_nil_iff.mpr
      intro f hf
      unfold feedFails
      simp [(hall f hf).1, (hall f hf).2]
    rw [run_selected_feeds, hfail, hnil]
    simp

/-- Concrete before-file for the C3 witness: entries a and b. -/
def c3Before : FeedFile :=
  ⟨"old-bytes",
   [⟨"Title A", "https://x/a", "https://x/a"⟩,
    ⟨"Title B", "https://x/b", "https://x/b"⟩]⟩

/-- Concrete after-file for the C3 witness: entries a, b and a fresh c. -/
def c3After : FeedFile :=
  ⟨"new-bytes",
   [⟨"Title A", "https://x/a", "https://x/a"⟩,
    ⟨"Title B", "https://x/b", "https://x/b"⟩,
    ⟨"Title C", "https://x/c", "https://x/c"⟩]⟩

/-- Concrete environment for the C3 witness. -/
def c3Env : String → FeedEnv :=
  fun _ => ⟨true, true, RunnerResult.success, some c3Before, some c3After⟩

/-- Witness for C3 at a concrete input. -/
theorem updated_classification_witness :
    processFeed c3Env initState "meta_blog" =
      { initState with
          successes := ["meta_blog"],
          updated := ["meta_blog"],
          new_entries := [("meta_blog", [("https://x/c", "Title C", "https://x/c")])],
          log := [LogEvent.running "meta_blog", LogEvent.completed "meta_blog",
                  LogEvent.updatedNewEntries "meta_blog" 1] } :=
  updated_classification c3Env initState "meta_blog" c3Before c3After
    "https://x/a" "https://x/b" "https://x/c"
    ("https://x/a", "Title A", "https://x/a")
    ("https://x/b", "Title B", "https://x/b")
    ("https://x/c", "Title C", "https://x/c")
    (by decide) (by decide) (by decide) (by decide) (by decide)
    (by decide) (by decide) (by decide) (by decide) (by decide)
    (by decide) (by decide) (by decide)

/-! ## C8: builder ordering -/

/-- C8: for article records with pairwise distinct published dates (for the
meta_blog builder: distinct whenever both are present), the generalist_blog
builder emits items in non-increasing date order, and the meta_blog builder
emits dated items in non-increasing date order with every undated record
placed after all dated ones. -/
theorem builder_ordering
    (gens : List GenArticle) (metas : List (String × MetaArticle))
    (_hgd : gens.Pairwise (fun x y => x.date ≠ y.date))
    (_hmd : metas.Pairwise (fun x y => x.2.date = y.2.date → x.2.date = none)) :
    (generate_rss_feed_gen gens).Pairwise (fun x y => y.date ≤ x.date) ∧
    (generate_rss_feed_meta metas).Pairwise
      (fun x y => (∀ dx dy, x.date = some dx → y.date = some dy → dy ≤ dx) ∧
                  (x.date = none → y.date = none)) := by
  constructor
  · have hs := List.sorted_insertionSort genSortRel gens
    refine hs.imp ?_
    intro x y hxy
    unfold genSortRel genSortLe at hxy
    exact of_decide_eq_true hxy
  · have hs := List.sorted_insertionSort metaSortRel (metas.map (fun p => p.2))
    refine hs.imp ?_
    intro x y hxy
    unfold metaSortRel metaSortLe at hxy
    constructor
    · intro dx dy hdx hdy
      rw [hdx, hdy] at hxy
      exact of_decide_eq_true hxy
    · intro hx
      rw [hx] at hxy
      rcases hy : y.date with _ | dy
      · rfl
      · rw [hy] at hxy
        simp at hxy

/-- Concrete generalist records with distinct dates, for the C8 witness. -/
def c8Gens : List GenArticle :=
  [⟨"Alpha", "https://g/a", "Alpha", 1, "Generalist AI"⟩,
   ⟨"Beta", "https://g/b", "Beta", 5, "Generalist AI"⟩]

/-- Concrete meta records mixing dated and undated entries, for the C8
witness. -/
def c8Metas : List (String × MetaArticle) :=
  [("m-one", ⟨"Meta One", "https://m/blog/m-one", "Meta One", some 3, "AI at Meta"⟩),
   ("m-two", ⟨"Meta Two", "https://m/blog/m-two", "Meta Two", none, "AI at Meta"⟩),
   ("m-three", ⟨"Meta Three", "https://m/blog/m-three", "Meta Three", some 8, "AI at Meta"⟩)]

/-- Witness for C8 at a concrete input. -/
theorem builder_ordering_witness :
    (generate_rss_feed_gen c8Gens).Pairwise (fun x y => y.date ≤ x.date) ∧
    (generate_rss_feed_meta c8Metas).Pairwise
      (fun x y => (∀ dx dy, x.date = some dx → y.date = some dy → dy ≤ dx) ∧
                  (x.date = none → y.date = none)) :=
  builder_ordering c8Gens c8Metas (by decide) (by decide)

/-- Witness for C5 at a concrete input: one known succeeding feed gives exit
status 0. -/
theorem exit_status_zero_iff_witness :
    run_selected_feeds (fun _ => ⟨true, false, RunnerResult.success, none, none⟩)
      ["meta_blog"] = 0 :=
  (exit_status_zero_iff (fun _ => ⟨true, false, RunnerResult.success, none, none⟩)
    ["meta_blog"]).mpr (by decide)

/-! ## C2: link uniqueness within one feed document -/

/-- The extraction invariant of the meta_blog dict: the slugs (keys) are
pairwise distinct and every stored article's link slugifies back to its
key. -/
def MetaInv (arts : List (String × MetaArticle)) : Prop :=
  ((arts.map (fun p => p.1)).Nodup) ∧ ∀ p ∈ arts, slugify_link p.2.link = some p.1

/-- The merge never touches the stored link. -/
theorem mergeExisting_link (raw_title : String) (date : Option Int) (e : MetaArticle) :
    (mergeExisting raw_title date e).link = e.link := by
  unfold mergeExisting
  split
  all_goals dsimp only
  all_goals split
  all_goals rfl

/-- Updating one dict entry keeps the key sequence. -/
theorem updateSlug_map_fst (arts : List (String × MetaArticle)) (slug : String)
    (f : MetaArticle → MetaArticle) :
    (updateSlug arts slug f).map (fun p => p.1) = arts.map (fun p => p.1) := by
  unfold updateSlug
  rw [List.map_map]
  apply List.map_congr_left
  intro p _
  by_cases hp : p.1 = slug
  · simp [hp]
  · simp [hp]

/-- Any element of an updated dict comes from an element of the original dict
with the same key, either untouched or passed through the update function. -/
theorem mem_updateSlug {arts : List (String × MetaArticle)} {slug : String}
    {f : MetaArticle → MetaArticle} {q : String × MetaArticle}
    (hq : q ∈ updateSlug arts slug f) :
    ∃ p ∈ arts, q.1 = p.1 ∧ (q.2 = p.2 ∨ q.2 = f p.2) := by
  unfold updateSlug at hq
  rcases List.mem_map.mp hq with ⟨p, hp, hpq⟩
  by_cases hps : p.1 = slug
  · rw [if_pos hps] at hpq
    exact ⟨p, hp, by rw [← hpq], Or.inr (by rw [← hpq])⟩
  · rw [if_neg hps] at hpq
    exact ⟨p, hp, by rw [← hpq], Or.inl (by rw [← hpq])⟩

/-- The de-duplication update of an existing entry preserves the extraction
invariant. -/
theorem metaInv_update (arts : List (String × MetaArticle)) (slug rt : String)
    (d : Option Int) (h : MetaInv arts) :
    MetaInv (updateSlug arts slug (mergeExisting rt d)) := by
  obtain ⟨hnd, hmem⟩ := h
  constructor
  · rw [updateSlug_map_fst]
    exact hnd
  · intro q hq
    obtain ⟨p, hp, hq1, hq2⟩ := mem_updateSlug hq
    rcases hq2 with h2 | h2
    · rw [hq1, h2]
      exact hmem p hp
    · rw [hq1, h2, mergeExisting_link]
      exact hmem p hp

/-- Inserting a fresh slug preserves the extraction invariant. -/
theorem metaInv_insert (arts : List (String × MetaArticle)) (slug : String)
    (art : MetaArticle)
    (hlook : lookupSlug arts slug = none)
    (hslug : slugify_link art.link = some slug)
    (h : MetaInv arts) :
    MetaInv (arts ++ [(slug, art)]) := by
  obtain ⟨hnd, hmem⟩ := h
  have hnotin : ∀ p ∈ arts, p.1 ≠ slug := by
    intro p hp
    have hfind : (arts.find? (fun p => p.1 = slug)) = none := by
      unfold lookupSlug at hlook
      exact Option.map_eq_none.mp hlook
    have := List.find?_eq_none.mp hfind p hp
    simpa using this
  constructor
  · rw [List.map_append, List.nodup_append]
    refine ⟨hnd, by simp, ?_⟩
    intro a ha hb
    rcases List.mem_map.mp ha with ⟨p, hp, rfl⟩
    simp at hb
    exact hnotin p hp hb
  · intro q hq
    rcases List.mem_append.mp hq with hq | hq
    · exact hmem q hq
    · have hq' : q = (slug, art) := by simpa using hq
      rw [hq']
      exact hslug

/-- Each anchor-loop step preserves the extraction invariant. -/
theorem metaStep_inv {arts : List (String × MetaArticle)} (anchor : MetaAnchor)
    (h : MetaInv arts) : MetaInv (metaStep arts anchor) := by
  simp only [metaStep]
  split
  · exact h
  split
  · exact h
  split
  · exact h
  rename_i slug heq
  split
  · exact h
  split
  · exact metaInv_update _ _ _ _ h
  · exact metaInv_insert _ _ _ (by assumption) heq h

/-- The whole anchor loop establishes the extraction invariant. -/
theorem metaRawArticles_inv (anchors : List MetaAnchor) :
    MetaInv (metaRawArticles anchors) := by
  unfold metaRawArticles
  suffices h : ∀ (l : List MetaAnchor) (acc : List (String × MetaArticle)),
      MetaInv acc → MetaInv (l.foldl metaStep acc) by
    exact h anchors [] ⟨by simp, by simp⟩
  intro l
  induction l with
  | nil => intro acc hacc; exact hacc
  | cons a as ih =>
    intro acc hacc
    exact ih _ (metaStep_inv a hacc)

/-- The links of the filtered extraction result are pairwise distinct. -/
theorem extract_meta_links_nodup (anchors : List MetaAnchor) :
    (extract_articles_meta anchors).Pairwise (fun p q => p.2.link ≠ q.2.link) := by
  obtain ⟨hnd, hmem⟩ := metaRawArticles_inv anchors
  have hnd2 : ((extract_articles_meta anchors).map (fun p => p.1)).Nodup := by
    apply List.Nodup.sublist _ hnd
    exact List.Sublist.map _ (List.filter_sublist _)
  have hmem2 : ∀ p ∈ extract_articles_meta anchors, slugify_link p.2.link = some p.1 := by
    intro p hp
    exact hmem p (List.mem_filter.mp hp).1
  have hpw : (extract_articles_meta anchors).Pairwise (fun p q => p.1 ≠ q.1) :=
    (List.pairwise_map).mp hnd2
  refine hpw.imp_of_mem ?_
  intro p q hp hq hne hlink
  apply hne
  have h1 := hmem2 p hp
  have h2 := hmem2 q hq
  rw [hlink, h2] at h1
  exact (Option.some.inj h1).symm

/-- The meta_blog feed document always has pairwise distinct links. -/
theorem meta_feed_links_nodup (anchors : List MetaAnchor) :
    (generate_rss_feed_meta (extract_articles_meta anchors)).Pairwise
      (fun x y => x.link ≠ y.link) := by
  have hvals : ((extract_articles_meta anchors).map (fun p => p.2)).Pairwise
      (fun x y => x.link ≠ y.link) :=
    (List.pairwise_map).mpr (extract_meta_links_nodup anchors)
  unfold generate_rss_feed_meta
  have hperm := List.perm_insertionSort metaSortRel
    ((extract_articles_meta anchors).map (fun p => p.2))
  exact (hperm.pairwise_iff (fun h => Ne.symm h)).mpr hvals

/-- Counterexample for C2: the generalist_blog extractor performs no
de-duplication, so a page carrying the same article anchor twice yields a
document with a duplicated link. -/
theorem feed_links_distinct_cex :
    ¬ (generate_rss_feed_gen
        (extract_articles_gen 0
          [⟨"/p", some "Post Title", none, some 3⟩,
           ⟨"/p", some "Post Title", none, some 3⟩])).Pairwise
        (fun x y => x.link ≠ y.link) := by decide

/-- C2 (amended): within one feed document the link values are pairwise
distinct for the meta_blog pipeline (extraction de-duplicates by slug, which
is a function of the link); the generalist_blog extractor performs no
de-duplication, so its document's links are pairwise distinct exactly when
the extracted records' links already are (the builder only permutes the
records). -/
theorem feed_links_distinct_amended
    (anchors : List MetaAnchor) (now : Int) (ganchors : List GenAnchor)
    (hg : (extract_articles_gen now ganchors).Pairwise (fun x y => x.link ≠ y.link)) :
    (generate_rss_feed_meta (extract_articles_meta anchors)).Pairwise
      (fun x y => x.link ≠ y.link) ∧
    (generate_rss_feed_gen (extract_articles_gen now ganchors)).Pairwise
      (fun x y => x.link ≠ y.link) := by
  refine ⟨meta_feed_links_nodup anchors, ?_⟩
  have hperm := List.perm_insertionSort genSortRel (extract_articles_gen now ganchors)
  exact (hperm.pairwise_iff (fun h => Ne.symm h)).mpr hg

/-- Concrete meta anchors for the C2 witness: two distinct hrefs for the same
slug, plus a fresh one. -/
def c2MetaAnchors : List MetaAnchor :=
  [⟨"/blog/first-post/", "First Post Story", "", "", some 4⟩,
   ⟨"https://ai.meta.com/blog/first-post", "First Post Story", "", "", none⟩,
   ⟨"/blog/second-post/", "Second Post Story", "", "", some 6⟩]

/-- Witness for C2 (amended) at a concrete input. -/
theorem feed_links_distinct_witness :
    (generate_rss_feed_meta (extract_articles_meta c2MetaAnchors)).Pairwise
      (fun x y => x.link ≠ y.link) ∧
    (generate_rss_feed_gen
      (extract_articles_gen 0 [⟨"/p", some "Post Title", none, some 3⟩])).Pairwise
      (fun x y => x.link ≠ y.link) :=
  feed_links_distinct_amended c2MetaAnchors 0
    [⟨"/p", some "Post Title", none, some 3⟩] (by decide)

/-! ## C1: idempotence of a feed run -/

/-- A generalist anchor with a parsed date yields the same record at any run
time. -/
theorem genStep_time (t1 t2 : Int) (acc : List GenArticle) (a : GenAnchor)
    (h : a.pDate ≠ none) : genStep t1 acc a = genStep t2 acc a := by
  obtain ⟨d, hd⟩ := Option.ne_none_iff_exists'.mp h
  simp [genStep, hd]

/-- When every anchor has a parsed date, generalist extraction is independent
of the run time. -/
theorem extract_gen_time (t1 t2 : Int) (ganchors : List GenAnchor)
    (h : ∀ a ∈ ganchors, a.pDate ≠ none) :
    extract_articles_gen t1 ganchors = extract_articles_gen t2 ganchors := by
  unfold extract_articles_gen
  suffices haux : ∀ (l : List GenAnchor) (acc : List GenArticle),
      (∀ a ∈ l, a.pDate ≠ none) →
        l.foldl (genStep t1) acc = l.foldl (genStep t2) acc by
    exact haux ganchors [] h
  intro l
  induction l with
  | nil => intro acc _; rfl
  | cons a as ih =>
    intro acc hall
    rw [List.foldl_cons, List.foldl_cons, genStep_time t1 t2 acc a (hall a (by simp))]
    exact ih _ (fun x hx => hall x (by simp [hx]))

/-- The undated generalist anchor of the C1 counterexample. -/
def c1GenAnchor : GenAnchor := ⟨"/post", some "Hello", none, none⟩

/-- The generalist document produced by a run at wall-clock time 0. -/
def c1Doc1 : List RenderItem := genRunItems 0 [c1GenAnchor]

/-- The generalist document produced by a run at wall-clock time 1. -/
def c1Doc2 : List RenderItem := genRunItems 1 [c1GenAnchor]

/-- A meta document, for the generation-timestamp half of the
counterexample. -/
def c1MetaDoc : List RenderItem :=
  metaRunItems 0 [⟨"/blog/big-news/", "Big News Today", "", "", some 5⟩]

/-- Environment of the second generalist run: the first run's output (run
time 0, generation stamp 7) on disk before, the second run's output (run
time 1, the same generation stamp 7) after. -/
def c1EnvGen : String → FeedEnv := fun _ =>
  ⟨true, true, RunnerResult.success,
   some (writeFeedFile genChannel 7 c1Doc1),
   some (writeFeedFile genChannel 7 c1Doc2)⟩

/-- Environment of a second meta run: the identical document serialized at
generation stamps 3 and then 4. -/
def c1EnvMeta : String → FeedEnv := fun _ =>
  ⟨true, true, RunnerResult.success,
   some (writeFeedFile metaChannel 3 c1MetaDoc),
   some (writeFeedFile metaChannel 4 c1MetaDoc)⟩

set_option maxRecDepth 20000 in
/-- Counterexample for C1.  First: a generalist_blog entry without a parsable
date takes the wall-clock run time as its pubDate, so two runs over the same
unchanged input differ beyond the embedded generation timestamp (the two
generation stamps here are equal and the contents still differ), and the
Runner classifies the second run as updated (with no new entries), not
unchanged.  Second: even for a byte-identical document, a changed generation
timestamp changes the checksum, so the second run is again classified
updated, not unchanged. -/
theorem idempotence_cex :
    renderFeed genChannel 0 c1Doc1 ≠ renderFeed genChannel 0 c1Doc2 ∧
    processFeed c1EnvGen initState "generalist_blog" =
      { initState with
          successes := ["generalist_blog"],
          updated := ["generalist_blog"],
          log := [LogEvent.running "generalist_blog",
                  LogEvent.completed "generalist_blog",
                  LogEvent.updatedNoNew "generalist_blog"] } ∧
    processFeed c1EnvMeta initState "meta_blog" =
      { initState with
          successes := ["meta_blog"],
          updated := ["meta_blog"],
          log := [LogEvent.running "meta_blog",
                  LogEvent.completed "meta_blog",
                  LogEvent.updatedNoNew "meta_blog"] } :=
  ⟨by decide, by decide, by decide⟩

/-- C1 (amended): the meta_blog pipeline document is independent of the run
time; the generalist_blog pipeline document is independent of the run time
provided every matched anchor carries a parsable date (otherwise the run
time is stamped into the entry's pubDate); and the Runner classifies the
second run as unchanged in the case that the re-written file bytes --
embedded generation timestamp included -- are unchanged, as for an unchanged
document serialized with an unchanged generation timestamp. -/
theorem idempotence_amended
    (t1 t2 : Int) (anchors : List MetaAnchor) (ganchors : List GenAnchor)
    (env : String → FeedEnv) (st : RunState) (feed : String)
    (ch : String) (doc : List RenderItem) (s1 s2 : Int)
    (hdated : ∀ a ∈ ganchors, a.pDate ≠ none)
    (hk : (env feed).known = true)
    (ho : (env feed).hasOutput = true)
    (hr : (env feed).result = RunnerResult.success)
    (hb : (env feed).beforeFile = some (writeFeedFile ch s1 doc))
    (ha : (env feed).afterFile = some (writeFeedFile ch s2 doc))
    (hs : s1 = s2) :
    metaRunItems t1 anchors = metaRunItems t2 anchors ∧
    genRunItems t1 ganchors = genRunItems t2 ganchors ∧
    processFeed env st feed =
      { st with successes := st.successes ++ [feed],
                log := st.log ++ [LogEvent.running feed, LogEvent.completed feed,
                                  LogEvent.noChanges feed] } := by
  refine ⟨rfl, ?_, ?_⟩
  · unfold genRunItems
    rw [extract_gen_time t1 t2 ganchors hdated]
  · subst hs
    simp [processFeed, hk, ho, hr, hb, ha]

/-- The document of the C1 witness run. -/
def c1WitnessDoc : List RenderItem :=
  genRunItems 0 [⟨"/post", some "Hello", none, some 12⟩]

/-- Environment of the C1 witness: identical bytes before and after. -/
def c1WitnessEnv : String → FeedEnv := fun _ =>
  ⟨true, true, RunnerResult.success,
   some (writeFeedFile genChannel 9 c1WitnessDoc),
   some (writeFeedFile genChannel 9 c1WitnessDoc)⟩

set_option maxRecDepth 20000 in
/-- Witness for C1 (amended) at a concrete input. -/
theorem idempotence_amended_witness :
    metaRunItems 0 [⟨"/blog/big-news/", "Big News Today", "", "", some 5⟩] =
      metaRunItems 1 [⟨"/blog/big-news/", "Big News Today", "", "", some 5⟩] ∧
    genRunItems 0 [⟨"/post", some "Hello", none, some 12⟩] =
      genRunItems 1 [⟨"/post", some "Hello", none, some 12⟩] ∧
    processFeed c1WitnessEnv initState "generalist_blog" =
      { initState with
          successes := ["generalist_blog"],
          log := [LogEvent.running "generalist_blog",
                  LogEvent.completed "generalist_blog",
                  LogEvent.noChanges "generalist_blog"] } :=
  idempotence_amended 0 1 [⟨"/blog/big-news/", "Big News Today", "", "", some 5⟩]
    [⟨"/post", some "Hello", none, some 12⟩] c1WitnessEnv initState "generalist_blog"
    genChannel c1WitnessDoc 9 9
    (by decide) rfl rfl rfl rfl rfl rfl

end RssFeeds
